import Mathlib

/-!
# Verification of the AddUsing qualifier-elision refactoring engine

A shallow embedding of `clang-tools-extra/clangd/refactor/tweaks/AddUsing.cpp`.

The tweak removes a pure-namespace qualifier under the cursor and inserts a
`using` declaration at a heuristically chosen location.  The embedding keeps
the source's structure:

* `UsingFinder.visitUsingDecl` / `UsingFinder.traverseDecl` — the
  `RecursiveASTVisitor` that collects relevant `using` declarations;
* `findInsertionPoint` — the three-tier insertion point search;
* `AddUsing.prepare` — the selection-tree climb plus the qualifier validator;
* `AddUsing.apply` — the edit synthesizer.

External collaborators (source manager, token buffer, `NestedNameSpecifier`
resolution and printing, `tooling::Replacements`) are not part of the two
source files; they are modelled from the spec where noted.

Machine-level caveats of the original (pointer identity of canonical decls,
`SourceLocation` encoding) are abstracted: canonical namespace decls are `Nat`
identifiers, source locations are `Nat` identifiers interpreted through an
explicit `SourceManager` record of query functions, and an invalid
`SourceLocation` is `Option.none`.
-/

set_option autoImplicit false

namespace AddUsingSpec

/-- The source-manager queries the tweak consumes.  A source location is a
`Nat` identifier; an invalid location is represented by `Option.none` at use
sites.  Each field embeds one clang `SourceManager` (or `SourceLocation`)
query used by `AddUsing.cpp`. -/
structure SourceManager where
  /-- Embeds `SM.getMainFileID()` -/
  mainFile : Nat
  /-- Embeds `SM.getFileID(loc)` -/
  fileOf : Nat → Nat
  /-- offset of a location inside its file, used by `tooling::Replacement` -/
  offsetOf : Nat → Nat
  /-- total translation-unit order: `SM.isBeforeInTranslationUnit(a, b)` is
  `orderOf a < orderOf b` -/
  orderOf : Nat → Nat
  /-- Embeds `loc.isMacroID()` -/
  isMacroID : Nat → Bool
  /-- Embeds `SM.isMacroBodyExpansion(loc)` -/
  isMacroBodyExpansion : Nat → Bool
  /-- Embeds `SM.isWrittenInSameFile(a, b)` is `writtenFileOf a = writtenFileOf b` -/
  writtenFileOf : Nat → Nat
  /-- Embeds `SM.getExpansionLoc(loc)` -/
  expansionOf : Nat → Nat

/-- Embeds `SM.isBeforeInTranslationUnit(a, b)`. -/
def SourceManager.isBeforeInTU (sm : SourceManager) (a b : Nat) : Bool :=
  sm.orderOf a < sm.orderOf b

/-- One segment of a nested-name-specifier chain, with its resolution.
Modelled from the spec: a `QualifierChain` is "a sequence of scope-name
segments preceding a final name", each segment resolving to a namespace
entity, a type, an alias, or staying unresolved. -/
inductive Segment where
  /-- a segment resolved to a namespace; carries the canonical decl identifier
  (`getCanonicalDecl()`) and the canonical namespace name used for printing -/
  | namespaceSeg (canonicalId : Nat) (canonicalName : String)
  /-- a segment that is a type -/
  | typeSeg
  /-- a segment that is a namespace alias -/
  | namespaceAliasSeg
  /-- an unresolved (dependent) segment -/
  | unresolvedSeg
deriving DecidableEq, Repr

/-- The canonical namespace decl of a segment, if the segment resolved to a
namespace. -/
def Segment.namespaceId : Segment → Option Nat
  | .namespaceSeg i _ => some i
  | _ => none

/-- A `NestedNameSpecifierLoc` that is present (`hasQualifier()`): the chain
of segments plus its source span.  An absent qualifier is `Option.none` at
use sites. -/
structure NNSInfo where
  segments : List Segment
  /-- Embeds `getBeginLoc()` of the qualifier's source range -/
  beginLoc : Nat
  /-- Embeds `getEndLoc()` of the qualifier's source range -/
  endLoc : Nat
deriving DecidableEq, Repr

/-- Modelled from the spec: clang's
`NestedNameSpecifier::getAsNamespace()->getCanonicalDecl()` (external AST
code, absent from the two source files), per the spec's `QualifierChain`
interface — "the resolved scope entity for the whole chain (or none if any
segment fails to resolve to a namespace)". -/
def NNSInfo.getAsNamespace (q : NNSInfo) : Option Nat :=
  if q.segments.all (fun s => s.namespaceId.isSome) then
    q.segments.getLast?.bind Segment.namespaceId
  else none

/-- Canonical printed form of one segment. -/
def Segment.printSeg : Segment → String
  | .namespaceSeg _ nm => nm ++ "::"
  | _ => ""

/-- Modelled from the spec: `NestedNameSpecifier::print` with the AST
context's printing policy (external AST code, absent from the two source
files) — "the fully-qualified scope path of the candidate's resolved
namespace chain (printed canonically, independent of original
spelling/macros)".  Depends only on the resolved segments, never on the
source span. -/
def NNSInfo.printQualifier (q : NNSInfo) : String :=
  q.segments.foldl (fun acc s => acc ++ s.printSeg) ""

/-- The data of one `UsingDecl` as consumed by the tweak. -/
structure UsingDeclInfo where
  /-- Embeds `D->getUsingLoc()`, the location of the `using` keyword -/
  usingLoc : Nat
  /-- Embeds `D->getEndLoc()`, the end of the declaration.  Not read by the tweak;
  recorded so that location claims about "after the declaration" can be
  stated. -/
  endLoc : Nat
  /-- Embeds `D->getQualifier()` (always present on a `UsingDecl`) -/
  qualifier : NNSInfo
  /-- Embeds `D->getName()` -/
  name : String
deriving DecidableEq, Repr

/-- Per-declaration data read by `UsingFinder`. -/
structure DeclInfo where
  /-- Embeds `Node->getDeclContext()->Encloses(SelectionDeclContext)` -/
  contextEncloses : Bool
  /-- Holds `some u` when this declaration is a `UsingDecl` -/
  usingInfo : Option UsingDeclInfo
deriving DecidableEq, Repr

mutual
/-- A declaration node of the AST with its children, as traversed by
`RecursiveASTVisitor`. -/
inductive DeclNode where
  | mk (info : DeclInfo) (children : DeclForest)
/-- A list of sibling declarations in source order (a specialised list, so
that the traversal is structurally recursive). -/
inductive DeclForest where
  | nil
  | cons (d : DeclNode) (ds : DeclForest)
end

/-- Embeds `UsingFinder::VisitUsingDecl`: record the declaration when it is written
in the main file and its declaring context encloses the selection. -/
def UsingFinder.visitUsingDecl (sm : SourceManager) (info : DeclInfo) :
    List UsingDeclInfo :=
  match info.usingInfo with
  | none => []
  | some u =>
    if sm.fileOf u.usingLoc ≠ sm.mainFile then []
    else if info.contextEncloses then [u] else []

mutual
/-- Embeds `UsingFinder::TraverseDecl`: descend (and visit) only when the node's
declaring context encloses the selection; children follow the node in
source (preorder) order. -/
def UsingFinder.traverseDecl (sm : SourceManager) : DeclNode → List UsingDeclInfo
  | .mk info children =>
    if info.contextEncloses then
      UsingFinder.visitUsingDecl sm info ++ UsingFinder.traverseForest sm children
    else []
/-- Traversal of a list of sibling declarations. -/
def UsingFinder.traverseForest (sm : SourceManager) : DeclForest → List UsingDeclInfo
  | .nil => []
  | .cons d ds => UsingFinder.traverseDecl sm d ++ UsingFinder.traverseForest sm ds
end

/-- A token of the expanded token stream (`syntax::Token`). -/
inductive TokKind where
  | l_brace
  | otherTok
deriving DecidableEq, Repr

/-- A syntax token: its kind and `endLocation()` (`none` when invalid). -/
structure Token where
  kind : TokKind
  endLoc : Option Nat
deriving DecidableEq, Repr

/-- Result of `TokenBuffer::spelledForExpanded` plus `syntax::Token::range(...)
.length()` on the qualifier's range.  Modelled from the spec: "a query to map
a tree node or source range back to contiguous, editable source text,
returning failure if the range cannot be mapped to spelled text in exactly
one file" (external token layer, absent from the two source files). -/
structure SpelledRange where
  /-- Embeds `SpelledTokens->front().location()` -/
  frontLoc : Nat
  /-- Embeds `syntax::Token::range(SM, front, back).length()` -/
  length : Nat
deriving DecidableEq, Repr

/-- The inputs of one invocation (`Tweak::Selection` together with the
external queries made on it). -/
structure Selection where
  sm : SourceManager
  /-- Embeds `Inputs.Cursor` (a valid location in the main file) -/
  cursor : Nat
  /-- the top-level declarations traversed by `UsingFinder` via
  `TraverseAST`, with their subtrees -/
  declTree : DeclForest
  /-- Embeds `dyn_cast<NamespaceDecl>(...getEnclosingNamespaceContext())` together
  with `expandedTokens(ND->getSourceRange())`: `some toks` when the innermost
  enclosing namespace context of the selection is a `NamespaceDecl` -/
  enclosingNamespace : Option (List Token)
  /-- begin locations of `getLocalTopLevelDecls()` -/
  topLevelDecls : List Nat
  /-- the spelled-token query for the candidate qualifier's range (`none`
  when the range cannot be mapped back to spelled text) -/
  spelledForQualifier : Option SpelledRange

/-- All `using` declarations relevant to the selection, in source order
(`UsingFinder(...).TraverseAST(...)`). -/
def collectUsings (inp : Selection) : List UsingDeclInfo :=
  UsingFinder.traverseForest inp.sm inp.declTree

/-- Embeds `InsertionPointData`: `loc = none` models the invalid `SourceLocation`
meaning "the using declaration already exists, insert nothing". -/
structure InsertionPointData where
  loc : Option Nat := none
  suffix : String := ""
deriving DecidableEq, Repr

/-- Outcome of the scan loop over the collected `using` declarations in
`findInsertionPoint` (lines 121–136 of the source). -/
inductive LoopResult where
  /-- Case for `return InsertionPointData()` — a duplicate was found -/
  | duplicate
  /-- loop ran to completion / broke at the cursor; carries `LastUsingLoc`
  (`none` = still invalid) -/
  | done (last : Option Nat)
  /-- undefined behaviour: `getAsNamespace()` returned null and was
  dereferenced -/
  | crash
deriving DecidableEq, Repr

/-- The `for (auto &U : Usings)` loop of `findInsertionPoint`.  For each
declaration not after the cursor it dereferences
`U->getQualifier()->getAsNamespace()` and
`QualifierToRemove.getNestedNameSpecifier()->getAsNamespace()` (a null
result makes the original crash), compares canonical namespaces and names,
and otherwise records `LastUsingLoc = U->getUsingLoc()`. -/
def usingLoop (sm : SourceManager) (cursor : Nat) (qual : NNSInfo)
    (name : String) : List UsingDeclInfo → Option Nat → LoopResult
  | [], last => .done last
  | u :: rest, last =>
    if sm.isBeforeInTU cursor u.usingLoc then
      .done last
    else
      match u.qualifier.getAsNamespace, qual.getAsNamespace with
      | some uns, some qns =>
        if uns = qns ∧ u.name = name then .duplicate
        else usingLoop sm cursor qual name rest (some u.usingLoc)
      | _, _ => .crash

/-- Result of `findInsertionPoint` (`llvm::Expected<InsertionPointData>`,
plus an explicit constructor for the undefined-behaviour path). -/
inductive FIPResult where
  | crash
  | err (msg : String)
  | ok (ip : InsertionPointData)
deriving DecidableEq, Repr

/-- The shared tail of `findInsertionPoint` (lines 163–173): "No using, no
namespace, no idea where to insert. Try above the first top level decl." -/
def aboveFirstTopLevelDecl (inp : Selection) : FIPResult :=
  match inp.topLevelDecls with
  | [] => .err "Cannot find place to insert \"using\""
  | d :: _ => .ok { loc := some (inp.sm.expansionOf d), suffix := "\n\n" }

/-- Embeds `findInsertionPoint` (lines 106–174): scan the collected `using`
declarations for a duplicate or an anchor, else try the token after the
enclosing namespace's opening brace, else fall back to the first top-level
declaration. -/
def findInsertionPoint (inp : Selection) (qual : NNSInfo) (name : String) :
    FIPResult :=
  match usingLoop inp.sm inp.cursor qual name (collectUsings inp) none with
  | .crash => .crash
  | .duplicate => .ok {}
  | .done last =>
    match last with
    | some l => .ok { loc := some l, suffix := "" }
    | none =>
      match inp.enclosingNamespace with
      | some toks =>
        match toks.find? (fun t => t.kind == TokKind.l_brace) with
        | none => .err "Namespace with no \x7b"
        | some t =>
          match t.endLoc with
          | none => .err "Namespace with no \x7b"
          | some l =>
            if inp.sm.isMacroID l then aboveFirstTopLevelDecl inp
            else .ok { loc := some l, suffix := "\n" }
      | none => aboveFirstTopLevelDecl inp

/-- A `tooling::Replacement`: file, offset, length and replacement text.
Length `0` is a pure insertion, text `""` a pure deletion. -/
structure Replacement where
  file : Nat
  offset : Nat
  length : Nat
  text : String
deriving DecidableEq, Repr

/-- Embeds `tooling::Replacement(SM, Loc, Length, Text)`: the file and offset are
resolved through the source manager. -/
def mkReplacement (sm : SourceManager) (locId : Nat) (len : Nat)
    (text : String) : Replacement :=
  { file := sm.fileOf locId, offset := sm.offsetOf locId, length := len,
    text := text }

/-- Whether two replacements conflict.  Modelled from the spec (external
`tooling::Replacements` code, absent from the two source files): "an ordered
collection of non-overlapping (location, length, replacement-text) triples";
two insertions at the same offset conflict, otherwise replacements conflict
when their half-open offset ranges overlap with a pure insertion only
conflicting strictly inside the other range. -/
def Replacement.conflictsWith (a b : Replacement) : Bool :=
  a.file == b.file &&
    (if a.length == 0 && b.length == 0 then a.offset == b.offset
     else a.offset < b.offset + b.length && b.offset < a.offset + a.length)

/-- Modelled from the spec: `tooling::Replacements::add`, which returns an
error (and leaves the set unchanged) when the new replacement conflicts with
one already present. -/
def Replacements.add (rs : List Replacement) (r : Replacement) :
    Except String (List Replacement) :=
  if rs.any (fun s => s.conflictsWith r) then .error "conflicting replacement"
  else .ok (rs ++ [r])

/-- A single-file edit (`Tweak::Effect` restricted to what the tweak
produces). -/
structure Effect where
  file : Nat
  edits : List Replacement
deriving DecidableEq, Repr

/-- Modelled from the spec: `Tweak::Effect::mainFileEdit` — "returns a
single-file edit" for the main file holding the accumulated replacements. -/
def mainFileEdit (sm : SourceManager) (rs : List Replacement) : Effect :=
  { file := sm.mainFile, edits := rs }

/-- Result of `AddUsing::apply` (`Expected<Tweak::Effect>` plus an explicit
constructor for the assert-failure / undefined-behaviour paths). -/
inductive ApplyResult where
  | crash
  | err (msg : String)
  | ok (e : Effect)
deriving DecidableEq, Repr

/-!
## The selection-tree climb and `AddUsing::prepare`
-/

/-- An `ElaboratedTypeLoc`'s data: its qualifier (`getQualifierLoc()`, absent
when the elaborated type has no nested-name-specifier) and
`getType().getUnqualifiedType().getBaseTypeIdentifier()` (null for unnamed
base types). -/
structure ElabTypeInfo where
  qualifier : Option NNSInfo
  baseTypeIdentifier : Option String
deriving DecidableEq, Repr

/-- The dynamic kind of a selection-tree node's AST node, as discriminated by
`ASTNode.get<NestedNameSpecifierLoc>()`, `get<TypeLoc>()` and
`get<DeclRefExpr>()` in `AddUsing::prepare`. -/
inductive SelASTNode where
  /-- a `NestedNameSpecifierLoc` node -/
  | nnsLoc
  /-- a `TypeLoc` node; `some e` when `getAs<ElaboratedTypeLoc>()` succeeds -/
  | typeLoc (elaborated : Option ElabTypeInfo)
  /-- a `DeclRefExpr` node: `getQualifierLoc()` and `getDecl()->getName()` -/
  | declRef (qualifier : Option NNSInfo) (name : String)
  /-- anything else -/
  | other
deriving DecidableEq, Repr

/-- The climb of `AddUsing::prepare` (lines 185–200): from the common
ancestor, walk to the parent while the node is a `NestedNameSpecifierLoc`,
or a non-elaborated `TypeLoc` whose parent is a `TypeLoc` or
`NestedNameSpecifierLoc`; stop at an `ElaboratedTypeLoc` or when neither
condition holds or no parent exists. -/
def climb : SelASTNode → List SelASTNode → SelASTNode
  | n, [] => n
  | n, p :: rest =>
    match n with
    | .nnsLoc => climb p rest
    | .typeLoc elaborated =>
      match elaborated with
      | some _ => n
      | none =>
        match p with
        | .typeLoc _ => climb p rest
        | .nnsLoc => climb p rest
        | _ => n
    | _ => n

/-- The candidate extraction of `AddUsing::prepare` (lines 204–213), or the
crash when an elaborated type's base type identifier is null. -/
inductive ExtractResult where
  | crash
  /-- the values of the fields `QualifierToRemove` and `Name` after lines
  204–213 (`none` = the null `NestedNameSpecifierLoc` default) -/
  | cand (qualifier : Option NNSInfo) (name : String)
deriving DecidableEq, Repr

/-- Extract `QualifierToRemove` and `Name` from the climbed node. -/
def extractCandidate : SelASTNode → ExtractResult
  | .declRef q nm => .cand q nm
  | .typeLoc (some e) =>
    match e.baseTypeIdentifier with
    | none => .crash
    | some nm => .cand e.qualifier nm
  | _ => .cand none ""

/-- Result of `AddUsing::prepare`: the boolean of the original plus, on
success, the fields it stores for `apply`; `crash` for the
undefined-behaviour path. -/
inductive PrepareResult where
  | crash
  | notApplicable
  | accepted (qual : NNSInfo) (name : String)
deriving DecidableEq, Repr

/-- Embeds `AddUsing::prepare` (lines 176–236): climb the selection tree, extract
the candidate, then validate: the qualifier must be present, resolve to a
namespace, the name must be non-empty, the qualifier's begin location must
not be a macro-body expansion, and its begin and end must be written in the
same file.  The selection tree is passed as the common-ancestor node followed
by its ancestors (an empty list models a null common ancestor). -/
def AddUsing.prepare (sm : SourceManager) (chain : List SelASTNode) :
    PrepareResult :=
  match chain with
  | [] => .notApplicable
  | n :: parents =>
    match extractCandidate (climb n parents) with
    | .crash => .crash
    | .cand none _ => .notApplicable
    | .cand (some q) nm =>
      if q.getAsNamespace = none then .notApplicable
      else if nm = "" then .notApplicable
      else if sm.isMacroBodyExpansion q.beginLoc then .notApplicable
      else if sm.writtenFileOf q.beginLoc ≠ sm.writtenFileOf q.endLoc then
        .notApplicable
      else .accepted q nm

/-- Embeds `AddUsing::apply` (lines 238–282): map the qualifier range to spelled
tokens (error when impossible), add the deletion replacement, run
`findInsertionPoint` (propagating its error), and when the insertion point
is valid synthesize `"using " + printed qualifier + name + ";" + suffix`,
assert the insertion location is in the main file (assert failure modelled
as `crash`), add the insertion replacement, and return the main-file edit. -/
def AddUsing.apply (inp : Selection) (qual : NNSInfo) (name : String) :
    ApplyResult :=
  match inp.spelledForQualifier with
  | none => .err "Could not determine length of the qualifier"
  | some sp =>
    match Replacements.add [] (mkReplacement inp.sm sp.frontLoc sp.length "") with
    | .error e => .err e
    | .ok r =>
      match findInsertionPoint inp qual name with
      | .crash => .crash
      | .err msg => .err msg
      | .ok ip =>
        match ip.loc with
        | none => .ok (mainFileEdit inp.sm r)
        | some l =>
          let usingText :=
            "using " ++ qual.printQualifier ++ name ++ ";" ++ ip.suffix
          if inp.sm.fileOf l = inp.sm.mainFile then
            match Replacements.add r (mkReplacement inp.sm l 0 usingText) with
            | .error e => .err e
            | .ok r2 => .ok (mainFileEdit inp.sm r2)
          else .crash

/-!
## Concrete inputs

`sm0` is the source manager of a plain single-file translation unit: location
identifiers are byte offsets, which also serve as file offsets and
translation-unit order; nothing originates from a macro.
-/

/-- A plain single-file source manager (file `0`), no macros, locations are
their own offsets and order. -/
def sm0 : SourceManager :=
  { mainFile := 0, fileOf := fun _ => 0, offsetOf := fun l => l,
    orderOf := fun l => l, isMacroID := fun _ => false,
    isMacroBodyExpansion := fun _ => false, writtenFileOf := fun _ => 0,
    expansionOf := fun l => l }

/-- The qualifier `a::b::` of the spec's example scenario, spelled at byte
offsets 53–58 of
`namespace a { namespace b { void f(); } } void g() { a::b::f(); }`. -/
def c2qual : NNSInfo :=
  { segments := [.namespaceSeg 1 "a", .namespaceSeg 2 "b"], beginLoc := 53,
    endLoc := 57 }

/-- Selection tree for the cursor on `a::b::f`: the `DeclRefExpr` node whose
parent is the surrounding statement. -/
def c2chain : List SelASTNode := [.declRef (some c2qual) "f", .other]

/-- The example scenario's invocation inputs: no `using` declarations
anywhere (namespace `b`'s subtree is pruned since `b` does not enclose the
selection inside top-level `g`), the selection's enclosing namespace context
is the translation unit (so no `NamespaceDecl`), and the top-level
declarations are `namespace a` (offset 0) and `void g()` (offset 42). -/
def c2sel : Selection :=
  { sm := sm0, cursor := 59,
    declTree :=
      .cons (.mk { contextEncloses := true, usingInfo := none }
        (.cons (.mk { contextEncloses := false, usingInfo := none }
          (.cons (.mk { contextEncloses := false, usingInfo := none } .nil)
            .nil))
          .nil))
        (.cons (.mk { contextEncloses := true, usingInfo := none } .nil) .nil),
    enclosingNamespace := none,
    topLevelDecls := [0, 42],
    spelledForQualifier := some { frontLoc := 53, length := 6 } }

/-- A prior `using other::g;` declaration spanning offsets 10–20 (its
`using` keyword at 10, its end at 20), relevant to the selection and not a
duplicate of the candidate. -/
def c1u : UsingDeclInfo :=
  { usingLoc := 10, endLoc := 20,
    qualifier := { segments := [.namespaceSeg 7 "other"], beginLoc := 16,
                   endLoc := 20 },
    name := "g" }

/-- The candidate qualifier `a::` spelled at offsets 25–27. -/
def c1qual : NNSInfo :=
  { segments := [.namespaceSeg 5 "a"], beginLoc := 25, endLoc := 27 }

/-- An invocation with one prior non-duplicate `using` declaration before
the cursor (at offset 30) and nothing else. -/
def c1sel : Selection :=
  { sm := sm0, cursor := 30,
    declTree :=
      .cons (.mk { contextEncloses := true, usingInfo := some c1u } .nil) .nil,
    enclosingNamespace := none,
    topLevelDecls := [10],
    spelledForQualifier := some { frontLoc := 25, length := 3 } }

/-- The candidate qualifier `n::` of the malformed-namespace scenarios. -/
def c4qual : NNSInfo :=
  { segments := [.namespaceSeg 3 "n"], beginLoc := 5, endLoc := 7 }

/-- An invocation with no `using` declarations and an enclosing
`NamespaceDecl` whose expanded token range contains no opening brace. -/
def c4sel : Selection :=
  { sm := sm0, cursor := 10, declTree := .nil,
    enclosingNamespace := some [{ kind := .otherTok, endLoc := some 1 }],
    topLevelDecls := [0],
    spelledForQualifier := some { frontLoc := 5, length := 3 } }

/-- A source manager in which only location 2 is a macro location. -/
def sm1 : SourceManager :=
  { mainFile := 0, fileOf := fun _ => 0, offsetOf := fun l => l,
    orderOf := fun l => l, isMacroID := fun l => l == 2,
    isMacroBodyExpansion := fun _ => false, writtenFileOf := fun _ => 0,
    expansionOf := fun l => l }

/-- An invocation whose enclosing namespace's opening brace ends at the
macro location 2 (the namespace was produced by a macro). -/
def c4macSel : Selection :=
  { sm := sm1, cursor := 10, declTree := .nil,
    enclosingNamespace := some [{ kind := .l_brace, endLoc := some 2 }],
    topLevelDecls := [0],
    spelledForQualifier := some { frontLoc := 5, length := 3 } }

/-- An existing `using a::b::f;` declaration before the cursor binding the
same canonical namespace (canonical decl 2) and the same name as the
candidate. -/
def c5u : UsingDeclInfo :=
  { usingLoc := 0, endLoc := 14,
    qualifier := { segments := [.namespaceSeg 1 "a", .namespaceSeg 2 "b"],
                   beginLoc := 6, endLoc := 10 },
    name := "f" }

/-- An invocation in which the candidate `a::b::f` (cursor at 50) already
has an equivalent `using` declaration at the top of the file. -/
def c5sel : Selection :=
  { sm := sm0, cursor := 50,
    declTree :=
      .cons (.mk { contextEncloses := true, usingInfo := some c5u } .nil) .nil,
    enclosingNamespace := none,
    topLevelDecls := [0],
    spelledForQualifier := some { frontLoc := 44, length := 6 } }

/-- A `using` declaration whose qualifier is a namespace *alias* (e.g.
`namespace foo = a;` followed by `using foo::x;`): syntactically a perfectly
legal `UsingDecl` in the main file enclosing the selection, but
`getQualifier()->getAsNamespace()` is null. -/
def c9u : UsingDeclInfo :=
  { usingLoc := 0, endLoc := 12,
    qualifier := { segments := [.namespaceAliasSeg], beginLoc := 6,
                   endLoc := 9 },
    name := "x" }

/-- The candidate qualifier `a::` of the crash scenario. -/
def c9qual : NNSInfo :=
  { segments := [.namespaceSeg 1 "a"], beginLoc := 40, endLoc := 42 }

/-- An invocation in which the alias scanner collects `c9u` (it is in the
main file and its context encloses the selection at offset 50). -/
def c9sel : Selection :=
  { sm := sm0, cursor := 50,
    declTree :=
      .cons (.mk { contextEncloses := true, usingInfo := some c9u } .nil) .nil,
    enclosingNamespace := none,
    topLevelDecls := [0],
    spelledForQualifier := some { frontLoc := 40, length := 3 } }

/-- An invocation whose qualifier range cannot be mapped back to spelled
tokens. -/
def c10sel : Selection :=
  { sm := sm0, cursor := 10, declTree := .nil,
    enclosingNamespace := none,
    topLevelDecls := [0],
    spelledForQualifier := none }

/-- A source manager in which location 5 lies in a macro body expansion. -/
def sm2 : SourceManager :=
  { mainFile := 0, fileOf := fun _ => 0, offsetOf := fun l => l,
    orderOf := fun l => l, isMacroID := fun l => l == 5,
    isMacroBodyExpansion := fun l => l == 5, writtenFileOf := fun _ => 0,
    expansionOf := fun l => l }

/-- A qualifier whose begin location 5 is a macro-body expansion. -/
def c7qual : NNSInfo :=
  { segments := [.namespaceSeg 4 "m"], beginLoc := 5, endLoc := 8 }

/-- Selection chain whose candidate qualifier begins inside a macro body. -/
def c7chain : List SelASTNode := [.declRef (some c7qual) "h", .other]

/-- The edit set actually produced on the example scenario: deletion of
`a::b::` and insertion of `using a::b::f;\n\n` at the top of the file. -/
def c2effect : Effect :=
  { file := 0,
    edits := [{ file := 0, offset := 53, length := 6, text := "" },
              { file := 0, offset := 0, length := 0,
                text := "using a::b::f;\n\n" }] }

example : collectUsings c2sel = [] := by decide
example : AddUsing.prepare sm0 c2chain = .accepted c2qual "f" := by decide
example : findInsertionPoint c2sel c2qual "f" =
    .ok { loc := some 0, suffix := "\n\n" } := by decide
example : AddUsing.apply c2sel c2qual "f" =
    .ok { file := 0,
          edits := [{ file := 0, offset := 53, length := 6, text := "" },
                    { file := 0, offset := 0, length := 0,
                      text := "using a::b::f;\n\n" }] } := by decide
example : findInsertionPoint c1sel c1qual "f" =
    .ok { loc := some 10, suffix := "" } := by decide
example : findInsertionPoint c4sel c4qual "f" =
    .err "Namespace with no \x7b" := by decide
example : findInsertionPoint c4macSel c4qual "f" =
    .ok { loc := some 0, suffix := "\n\n" } := by decide
example : AddUsing.apply c5sel c2qual "f" =
    .ok { file := 0,
          edits := [{ file := 0, offset := 44, length := 6, text := "" }] } :=
  by decide
example : findInsertionPoint c9sel c9qual "x" = .crash := by decide
example : AddUsing.apply c9sel c9qual "x" = .crash := by decide
example : AddUsing.prepare sm2 c7chain = .notApplicable := by decide

/-!
## Helper lemmas
-/

/-- Adding to an empty replacement set never conflicts. -/
theorem Replacements.add_nil (r : Replacement) :
    Replacements.add [] r = .ok [r] := rfl

/-- Adding to a singleton replacement set succeeds exactly without a
conflict, and appends. -/
theorem Replacements.add_singleton (a r : Replacement)
    (rs : List Replacement) (h : Replacements.add [a] r = .ok rs) :
    a.conflictsWith r = false ∧ rs = [a, r] := by
  unfold Replacements.add at h
  split at h
  · cases h
  · next hc =>
    simp only [List.any_cons, List.any_nil, Bool.or_false] at hc
    cases h
    exact ⟨Bool.not_eq_true _ ▸ Bool.of_not_eq_true hc, rfl⟩

/-- A chain whose resolved namespace exists is non-empty and resolves every
segment to a namespace. -/
theorem NNSInfo.getAsNamespace_ne_none (q : NNSInfo)
    (h : q.getAsNamespace ≠ none) :
    q.segments ≠ [] ∧ ∀ s ∈ q.segments, (s.namespaceId).isSome := by
  unfold NNSInfo.getAsNamespace at h
  split at h
  · next hall =>
    refine ⟨?_, fun s hs => (List.all_eq_true.mp hall) s hs⟩
    intro hnil
    rw [hnil] at h
    exact h rfl
  · exact absurd rfl h

/-- A chain with no segments or with a non-namespace segment has no resolved
namespace. -/
theorem NNSInfo.getAsNamespace_eq_none (q : NNSInfo)
    (h : q.segments = [] ∨ ¬ ∀ s ∈ q.segments, (s.namespaceId).isSome) :
    q.getAsNamespace = none := by
  unfold NNSInfo.getAsNamespace
  rcases h with h | h
  · rw [h]
    simp
  · rw [if_neg]
    intro hall
    exact h fun s hs => (List.all_eq_true.mp hall) s hs

/-- The scan loop stops, keeping `last`, when the remaining declarations
start at or after the cursor (or there are none). -/
theorem usingLoop_stop (sm : SourceManager) (cursor : Nat) (qual : NNSInfo)
    (name : String) (post : List UsingDeclInfo) (last : Option Nat)
    (hpost : ∀ v, post.head? = some v →
      sm.isBeforeInTU cursor v.usingLoc = true) :
    usingLoop sm cursor qual name post last = .done last := by
  cases post with
  | nil => rfl
  | cons v rest =>
    have hv := hpost v rfl
    simp [usingLoop, hv]

/-- The scan loop reports a duplicate as soon as a processed declaration
binds the candidate's canonical namespace and name, provided every earlier
processed declaration has a namespace qualifier. -/
theorem usingLoop_duplicate (sm : SourceManager) (cursor : Nat)
    (qual : NNSInfo) (name : String) :
    ∀ (pre : List UsingDeclInfo) (rest : List UsingDeclInfo)
      (u : UsingDeclInfo) (last : Option Nat),
    (∀ v ∈ pre, sm.isBeforeInTU cursor v.usingLoc = false ∧
      (v.qualifier.getAsNamespace).isSome) →
    sm.isBeforeInTU cursor u.usingLoc = false →
    u.qualifier.getAsNamespace = qual.getAsNamespace →
    (qual.getAsNamespace).isSome →
    u.name = name →
    usingLoop sm cursor qual name (pre ++ u :: rest) last = .duplicate := by
  intro pre
  induction pre with
  | nil =>
    intro rest u last _ hu hq hqs hn
    obtain ⟨qns, hqns⟩ := Option.isSome_iff_exists.mp hqs
    rw [List.nil_append]
    rw [usingLoop, if_neg (by simp [hu]), hq, hqns]
    simp [hn]
  | cons v pre ih =>
    intro rest u last hpre hu hq hqs hn
    obtain ⟨hvc, hvs⟩ := hpre v (List.mem_cons_self v _)
    obtain ⟨vns, hvns⟩ := Option.isSome_iff_exists.mp hvs
    obtain ⟨qns, hqns⟩ := Option.isSome_iff_exists.mp hqs
    rw [List.cons_append, usingLoop, if_neg (by simp [hvc]), hvns, hqns]
    show (if vns = qns ∧ v.name = name then LoopResult.duplicate
      else usingLoop sm cursor qual name (pre ++ u :: rest)
        (some v.usingLoc)) = LoopResult.duplicate
    by_cases hdup : vns = qns ∧ v.name = name
    · rw [if_pos hdup]
    · rw [if_neg hdup]
      exact ih rest u (some v.usingLoc)
        (fun w hw => hpre w (List.mem_cons_of_mem v hw)) hu hq hqs hn

/-- When no processed declaration is a duplicate, the scan loop records the
last processed declaration's `using` location as the anchor. -/
theorem usingLoop_anchor (sm : SourceManager) (cursor : Nat) (qual : NNSInfo)
    (name : String) :
    ∀ (pre : List UsingDeclInfo) (post : List UsingDeclInfo)
      (last : Option Nat) (u : UsingDeclInfo),
    (∀ v ∈ pre, sm.isBeforeInTU cursor v.usingLoc = false ∧
      (v.qualifier.getAsNamespace).isSome ∧
      ¬(v.qualifier.getAsNamespace = qual.getAsNamespace ∧ v.name = name)) →
    (qual.getAsNamespace).isSome →
    (∀ v, post.head? = some v → sm.isBeforeInTU cursor v.usingLoc = true) →
    pre.getLast? = some u →
    usingLoop sm cursor qual name (pre ++ post) last =
      .done (some u.usingLoc) := by
  intro pre
  induction pre with
  | nil => intro post last u _ _ _ hlast; cases hlast
  | cons v pre ih =>
    intro post last u hpre hqs hpost hlast
    obtain ⟨hvc, hvs, hvd⟩ := hpre v (List.mem_cons_self v _)
    obtain ⟨vns, hvns⟩ := Option.isSome_iff_exists.mp hvs
    obtain ⟨qns, hqns⟩ := Option.isSome_iff_exists.mp hqs
    have hnodup : ¬(vns = qns ∧ v.name = name) := by
      rintro ⟨h1, h2⟩
      exact hvd ⟨by rw [hvns, hqns, h1], h2⟩
    rw [List.cons_append, usingLoop, if_neg (by simp [hvc]), hvns, hqns]
    show (if vns = qns ∧ v.name = name then LoopResult.duplicate
      else usingLoop sm cursor qual name (pre ++ post)
        (some v.usingLoc)) = LoopResult.done (some u.usingLoc)
    rw [if_neg hnodup]
    cases pre with
    | nil =>
      cases hlast
      rw [List.nil_append]
      exact usingLoop_stop sm cursor qual name post (some v.usingLoc) hpost
    | cons w pre' =>
      rw [List.getLast?_cons_cons] at hlast
      exact ih post (some v.usingLoc) u
        (fun w' hw' => hpre w' (List.mem_cons_of_mem v hw')) hqs hpost hlast

/-- Characterization of a successful `AddUsing::apply`: the qualifier range
was mapped to spelled tokens, and the edit set is either the lone qualifier
deletion (invalid insertion point) or the deletion followed by a
non-conflicting insertion whose location the assertion placed in the main
file. -/
theorem apply_ok_characterization (inp : Selection) (qual : NNSInfo)
    (name : String) (e : Effect)
    (h : AddUsing.apply inp qual name = .ok e) :
    ∃ sp, inp.spelledForQualifier = some sp ∧
      ((∃ suffix, findInsertionPoint inp qual name =
          .ok { loc := none, suffix := suffix } ∧
          e = mainFileEdit inp.sm
            [mkReplacement inp.sm sp.frontLoc sp.length ""]) ∨
       (∃ l suffix, findInsertionPoint inp qual name =
          .ok { loc := some l, suffix := suffix } ∧
          inp.sm.fileOf l = inp.sm.mainFile ∧
          (mkReplacement inp.sm sp.frontLoc sp.length "").conflictsWith
            (mkReplacement inp.sm l 0
              ("using " ++ qual.printQualifier ++ name ++ ";" ++ suffix)) =
            false ∧
          e = mainFileEdit inp.sm
            [mkReplacement inp.sm sp.frontLoc sp.length "",
             mkReplacement inp.sm l 0
               ("using " ++ qual.printQualifier ++ name ++ ";" ++ suffix)])) := by
  unfold AddUsing.apply at h
  split at h
  · simp at h
  next sp hsp =>
    refine ⟨sp, hsp, ?_⟩
    rw [Replacements.add_nil] at h
    dsimp only at h
    split at h
    · simp at h
    · simp at h
    next ip heq =>
      obtain ⟨iploc, ipsuf⟩ := ip
      dsimp only at h
      split at h
      · injection h with h'
        exact Or.inl ⟨ipsuf, heq, h'.symm⟩
      next l =>
        split at h
        next hfile =>
          split at h
          · simp at h
          next r2 heq3 =>
            obtain ⟨hconf, hr2⟩ := Replacements.add_singleton _ _ _ heq3
            subst hr2
            injection h with h'
            exact Or.inr ⟨l, ipsuf, heq, hfile, hconf, h'.symm⟩
        · simp at h

/-!
## Claim theorems
-/

/-- C1 (counterexample): with no duplicate and one prior alias declaration
`c1u` (spanning locations 10–20) before the cursor, the insertion point is
`c1u`'s own `using`-keyword location 10 with empty suffix — which is *not*
past the end of that declaration, refuting "immediately after that last
prior alias declaration (at a location past the end of that
declaration)". -/
theorem c1_counterexample :
    findInsertionPoint c1sel c1qual "f" =
      .ok { loc := some c1u.usingLoc, suffix := "" } ∧
    ¬ c1sel.sm.orderOf c1u.endLoc < c1sel.sm.orderOf c1u.usingLoc := by
  exact ⟨by decide, by decide⟩

/-- C1 (amended): when the scanner finds no duplicate but processed at
least one prior alias declaration, the Insertion-Point Selector places the
new alias declaration at the `using`-keyword location of the last processed
prior alias declaration — i.e. immediately *before* that declaration — with
an empty suffix. -/
theorem c1_anchor_inserts_before_last (inp : Selection) (qual : NNSInfo)
    (name : String) (pre post : List UsingDeclInfo) (u : UsingDeclInfo)
    (husings : collectUsings inp = pre ++ post)
    (hlast : pre.getLast? = some u)
    (hpre : ∀ v ∈ pre, inp.sm.isBeforeInTU inp.cursor v.usingLoc = false ∧
      (v.qualifier.getAsNamespace).isSome ∧
      ¬(v.qualifier.getAsNamespace = qual.getAsNamespace ∧ v.name = name))
    (hq : (qual.getAsNamespace).isSome)
    (hpost : ∀ v, post.head? = some v →
      inp.sm.isBeforeInTU inp.cursor v.usingLoc = true) :
    findInsertionPoint inp qual name =
      .ok { loc := some u.usingLoc, suffix := "" } := by
  unfold findInsertionPoint
  rw [husings, usingLoop_anchor inp.sm inp.cursor qual name pre post none u
    hpre hq hpost hlast]

/-- C1 (witness): the amended anchor rule at the concrete one-using input:
the new alias is inserted at `c1u`'s own location. -/
theorem c1_witness :
    findInsertionPoint c1sel c1qual "f" =
      .ok { loc := some c1u.usingLoc, suffix := "" } :=
  c1_anchor_inserts_before_last c1sel c1qual "f" [c1u] [] c1u (by decide)
    (by decide)
    (by intro v hv; rw [List.mem_singleton] at hv; subst hv; decide)
    (by decide) (by intro v hv; cases hv)

/-- C2 (counterexample): on the spec's example scenario
(`namespace a { namespace b { void f(); } } void g() { a::b::f(); }`,
cursor on `a::b::f`) the produced EditSet is not the claimed one: the
insertion is not after `namespace b`'s opening brace (offset 27) with text
`using a::b::f;\n`. -/
theorem c2_counterexample :
    AddUsing.apply c2sel c2qual "f" =
      .ok { file := 0,
            edits := [{ file := 0, offset := 53, length := 6, text := "" },
                      { file := 0, offset := 0, length := 0,
                        text := "using a::b::f;\n\n" }] } ∧
    AddUsing.apply c2sel c2qual "f" ≠
      .ok { file := 0,
            edits := [{ file := 0, offset := 53, length := 6, text := "" },
                      { file := 0, offset := 27, length := 0,
                        text := "using a::b::f;\n" }] } := by
  exact ⟨by decide, by decide⟩

/-- C2 (amended): on the example scenario the candidate `a::b::` / `f` is
accepted, the span `a::b::` (offset 53, length 6) is deleted, and — because
the reference sits inside the *top-level* function `g`, which has no
enclosing namespace, and there is no existing alias — the tier-4 fallback
inserts `using a::b::f;\n\n` immediately before the first top-level
declaration (offset 0), not after `namespace b`'s opening brace. -/
theorem c2_amended :
    AddUsing.prepare sm0 c2chain = .accepted c2qual "f" ∧
    AddUsing.apply c2sel c2qual "f" =
      .ok { file := 0,
            edits := [{ file := 0, offset := 53, length := 6, text := "" },
                      { file := 0, offset := 0, length := 0,
                        text := "using a::b::f;\n\n" }] } := by
  exact ⟨by decide, by decide⟩

/-- C3: whenever `apply` succeeds and the edit set contains an insertion
(a second edit), that edit is exactly the insertion of the alias keyword
`"using "`, the canonically printed namespace chain, the name, the
terminator `";"`, and the insertion point's suffix — and the printed chain
depends only on the resolved segments, not on how the qualifier was spelled
(its source span plays no role in printing). -/
theorem c3_inserted_text (inp : Selection) (qual : NNSInfo) (name : String)
    (e : Effect) (r : Replacement)
    (h : AddUsing.apply inp qual name = .ok e)
    (hr : e.edits.get? 1 = some r) :
    ∃ l suffix,
      findInsertionPoint inp qual name =
        .ok { loc := some l, suffix := suffix } ∧
      r = mkReplacement inp.sm l 0
        ("using " ++ qual.printQualifier ++ name ++ ";" ++ suffix) ∧
      ∀ q' : NNSInfo, q'.segments = qual.segments →
        q'.printQualifier = qual.printQualifier := by
  obtain ⟨sp, hsp, hc | hc⟩ := apply_ok_characterization inp qual name e h
  · obtain ⟨suffix, hfip, hee⟩ := hc
    rw [hee] at hr
    simp [mainFileEdit] at hr
  · obtain ⟨l, suffix, hfip, hfile, hconf, hee⟩ := hc
    refine ⟨l, suffix, hfip, ?_, ?_⟩
    · rw [hee] at hr
      simp only [mainFileEdit, List.get?] at hr
      exact (Option.some.inj hr).symm
    · intro q' hq'
      simp [NNSInfo.printQualifier, hq']

/-- C3 (witness): the inserted-text shape at the example scenario, whose
successful `apply` carries the insertion as its second edit. -/
theorem c3_witness :
    ∃ l suffix,
      findInsertionPoint c2sel c2qual "f" =
        .ok { loc := some l, suffix := suffix } ∧
      ({ file := 0, offset := 0, length := 0,
         text := "using a::b::f;\n\n" } : Replacement) =
        mkReplacement c2sel.sm l 0
          ("using " ++ c2qual.printQualifier ++ "f" ++ ";" ++ suffix) ∧
      ∀ q' : NNSInfo, q'.segments = c2qual.segments →
        q'.printQualifier = c2qual.printQualifier :=
  c3_inserted_text c2sel c2qual "f"
    { file := 0,
      edits := [{ file := 0, offset := 53, length := 6, text := "" },
                { file := 0, offset := 0, length := 0,
                  text := "using a::b::f;\n\n" }] }
    { file := 0, offset := 0, length := 0, text := "using a::b::f;\n\n" }
    (by decide) (by decide)

/-- C4 (counterexample): with no duplicate, no anchor, and an enclosing
`NamespaceDecl` whose token range has no opening brace, the selector does
*not* fall through to tier 4: it fails with "Namespace with no \x7b". -/
theorem c4_counterexample :
    findInsertionPoint c4sel c4qual "f" = .err "Namespace with no \x7b" ∧
    findInsertionPoint c4sel c4qual "f" ≠ aboveFirstTopLevelDecl c4sel := by
  exact ⟨by decide, by decide⟩

/-- C4 (amended): with no duplicate and no anchor, when the innermost named
enclosing scope exists: if its opening delimiter cannot be located (no
opening-brace token, or the brace token's end location is invalid) the
selector *fails* with "Namespace with no \x7b"; only when the located
delimiter's end location lies inside a macro expansion does it fall through
to tier 4, which inserts before the first top-level declaration with a
double-newline suffix. -/
theorem c4_amended (inp : Selection) (qual : NNSInfo) (name : String)
    (toks : List Token)
    (hloop : usingLoop inp.sm inp.cursor qual name (collectUsings inp) none =
      .done none)
    (hns : inp.enclosingNamespace = some toks) :
    (toks.find? (fun t => t.kind == TokKind.l_brace) = none →
      findInsertionPoint inp qual name = .err "Namespace with no \x7b") ∧
    (∀ t, toks.find? (fun t => t.kind == TokKind.l_brace) = some t →
      t.endLoc = none →
      findInsertionPoint inp qual name = .err "Namespace with no \x7b") ∧
    (∀ t l, toks.find? (fun t => t.kind == TokKind.l_brace) = some t →
      t.endLoc = some l → inp.sm.isMacroID l = true →
      findInsertionPoint inp qual name = aboveFirstTopLevelDecl inp) ∧
    (∀ d ds, inp.topLevelDecls = d :: ds →
      aboveFirstTopLevelDecl inp =
        .ok { loc := some (inp.sm.expansionOf d), suffix := "\n\n" }) := by
  refine ⟨?_, ?_, ?_, ?_⟩
  · intro hfind
    simp [findInsertionPoint, hloop, hns, hfind]
  · intro t hfind hend
    simp [findInsertionPoint, hloop, hns, hfind, hend]
  · intro t l hfind hend hmac
    simp [findInsertionPoint, hloop, hns, hfind, hend, hmac]
  · intro d ds htld
    simp [aboveFirstTopLevelDecl, htld]

/-- C4 (witness): the amended fall-through at the concrete macro-brace
input: the enclosing namespace's brace ends at a macro location, so the
selector proceeds to tier 4. -/
theorem c4_witness :
    findInsertionPoint c4macSel c4qual "f" =
      aboveFirstTopLevelDecl c4macSel :=
  (c4_amended c4macSel c4qual "f" [{ kind := .l_brace, endLoc := some 2 }]
    (by decide) rfl).2.2.1 { kind := .l_brace, endLoc := some 2 } 2
    (by decide) rfl (by decide)

/-- C5: when some collected alias declaration strictly before the cursor
binds the candidate's canonical namespace and name (and the collected
declarations before it are at/before the cursor with namespace-resolving
qualifiers), `apply` produces exactly the single qualifier-deletion edit —
no insertion, so the file's alias declarations are unchanged. -/
theorem c5_duplicate_only_deletes (inp : Selection) (qual : NNSInfo)
    (name : String) (pre rest : List UsingDeclInfo) (u : UsingDeclInfo)
    (sp : SpelledRange)
    (husings : collectUsings inp = pre ++ u :: rest)
    (hpre : ∀ v ∈ pre, inp.sm.isBeforeInTU inp.cursor v.usingLoc = false ∧
      (v.qualifier.getAsNamespace).isSome)
    (hu : inp.sm.orderOf u.usingLoc < inp.sm.orderOf inp.cursor)
    (hq : u.qualifier.getAsNamespace = qual.getAsNamespace)
    (hqs : (qual.getAsNamespace).isSome)
    (hn : u.name = name)
    (hsp : inp.spelledForQualifier = some sp) :
    AddUsing.apply inp qual name =
      .ok { file := inp.sm.mainFile,
            edits := [mkReplacement inp.sm sp.frontLoc sp.length ""] } := by
  have hcu : inp.sm.isBeforeInTU inp.cursor u.usingLoc = false := by
    simp only [SourceManager.isBeforeInTU, decide_eq_false_iff_not]
    omega
  have hfip : findInsertionPoint inp qual name = .ok {} := by
    unfold findInsertionPoint
    rw [husings, usingLoop_duplicate inp.sm inp.cursor qual name pre rest u
      none hpre hcu hq hqs hn]
  simp [AddUsing.apply, hsp, Replacements.add_nil, hfip, mainFileEdit]

/-- C5 (witness): the duplicate rule at the concrete input in which
`using a::b::f;` already exists before the cursor: only the deletion is
emitted. -/
theorem c5_witness :
    AddUsing.apply c5sel c2qual "f" =
      .ok { file := c5sel.sm.mainFile,
            edits := [mkReplacement c5sel.sm 44 6 ""] } :=
  c5_duplicate_only_deletes c5sel c2qual "f" [] [] c5u { frontLoc := 44, length := 6 }
    (by decide) (by intro v hv; exact absurd hv (List.not_mem_nil v))
    (by decide) (by decide) (by decide) rfl rfl

/-- C6: every candidate accepted by `prepare` has a qualifier chain with at
least one segment, all of whose segments resolve to namespaces, and a
non-empty name; an extracted candidate violating any of these is rejected
as not-applicable. -/
theorem c6_validator_invariant (sm : SourceManager)
    (chain : List SelASTNode) :
    (∀ q nm, AddUsing.prepare sm chain = .accepted q nm →
      q.segments ≠ [] ∧ (∀ s ∈ q.segments, (s.namespaceId).isSome) ∧
      nm ≠ "") ∧
    (∀ n parents q nm, chain = n :: parents →
      extractCandidate (climb n parents) = .cand (some q) nm →
      (q.segments = [] ∨ ¬(∀ s ∈ q.segments, (s.namespaceId).isSome) ∨
        nm = "") →
      AddUsing.prepare sm chain = .notApplicable) := by
  constructor
  · intro q nm h
    unfold AddUsing.prepare at h
    split at h
    · simp at h
    split at h
    · simp at h
    · simp at h
    next q' nm' hx =>
      split at h
      · simp at h
      next hga =>
        split at h
        · simp at h
        next hnm =>
          split at h
          · simp at h
          split at h
          · simp at h
          injection h with h1 h2
          obtain ⟨hne, hall⟩ := NNSInfo.getAsNamespace_ne_none _ hga
          rw [← h1, ← h2]
          exact ⟨hne, hall, hnm⟩
  · intro n parents q nm hchain hx hviol
    subst hchain
    have hred : AddUsing.prepare sm (n :: parents) =
        (if q.getAsNamespace = none then .notApplicable
         else if nm = "" then .notApplicable
         else if sm.isMacroBodyExpansion q.beginLoc then .notApplicable
         else if sm.writtenFileOf q.beginLoc ≠ sm.writtenFileOf q.endLoc then
           .notApplicable
         else .accepted q nm) := by
      simp only [AddUsing.prepare]
      rw [hx]
    rw [hred]
    rcases hviol with hv | hv | hv
    · rw [if_pos (NNSInfo.getAsNamespace_eq_none q (Or.inl hv))]
    · rw [if_pos (NNSInfo.getAsNamespace_eq_none q (Or.inr hv))]
    · subst hv
      by_cases hga : q.getAsNamespace = none
      · rw [if_pos hga]
      · rw [if_neg hga, if_pos rfl]

/-- C6 (witness): the validator invariant at the example scenario's
accepted candidate `a::b::` / `f`. -/
theorem c6_witness :
    c2qual.segments ≠ [] ∧
    (∀ s ∈ c2qual.segments, (s.namespaceId).isSome) ∧ ("f" : String) ≠ "" :=
  (c6_validator_invariant sm0 c2chain).1 c2qual "f" (by decide)

/-- C7: for a candidate passing the structural checks, `prepare` rejects it
as not-applicable whenever the qualifier's begin location lies in a
macro-body expansion or its begin and end are written in different files,
and accepts it otherwise — in particular a qualifier that is a macro
argument (not a macro-body expansion, written in one file) is accepted. -/
theorem c7_macro_file_checks (sm : SourceManager) (n : SelASTNode)
    (parents : List SelASTNode) (q : NNSInfo) (nm : String)
    (hx : extractCandidate (climb n parents) = .cand (some q) nm)
    (hga : q.getAsNamespace ≠ none) (hnm : nm ≠ "") :
    ((sm.isMacroBodyExpansion q.beginLoc = true ∨
        sm.writtenFileOf q.beginLoc ≠ sm.writtenFileOf q.endLoc) →
      AddUsing.prepare sm (n :: parents) = .notApplicable) ∧
    (sm.isMacroBodyExpansion q.beginLoc = false →
      sm.writtenFileOf q.beginLoc = sm.writtenFileOf q.endLoc →
      AddUsing.prepare sm (n :: parents) = .accepted q nm) := by
  have hred : AddUsing.prepare sm (n :: parents) =
      (if q.getAsNamespace = none then .notApplicable
       else if nm = "" then .notApplicable
       else if sm.isMacroBodyExpansion q.beginLoc then .notApplicable
       else if sm.writtenFileOf q.beginLoc ≠ sm.writtenFileOf q.endLoc then
         .notApplicable
       else .accepted q nm) := by
    simp only [AddUsing.prepare]
    rw [hx]
  constructor
  · intro hv
    rw [hred, if_neg hga, if_neg hnm]
    rcases hv with hv | hv
    · rw [if_pos hv]
    · by_cases hmb : sm.isMacroBodyExpansion q.beginLoc = true
      · rw [if_pos hmb]
      · rw [if_neg hmb, if_pos hv]
  · intro h1 h2
    rw [hred, if_neg hga, if_neg hnm, if_neg (by simp [h1]),
      if_neg (not_not_intro h2)]

/-- C7 (witness): a qualifier beginning inside a macro-body expansion is
rejected, while the example scenario's plainly spelled qualifier is
accepted. -/
theorem c7_witness :
    AddUsing.prepare sm2 c7chain = .notApplicable ∧
    AddUsing.prepare sm0 c2chain = .accepted c2qual "f" :=
  ⟨(c7_macro_file_checks sm2 (.declRef (some c7qual) "h") [.other] c7qual "h"
      (by decide) (by decide) (by decide)).1 (Or.inl (by decide)),
   (c7_macro_file_checks sm0 (.declRef (some c2qual) "f") [.other] c2qual "f"
      (by decide) (by decide) (by decide)).2 (by decide) (by decide)⟩

/-- C8: a successful `apply` produces an edit set whose file is the file
containing the cursor (the main file), with at most two edits, each located
in that same file, and no two edits conflicting in offset ranges. -/
theorem c8_editset_invariants (inp : Selection) (qual : NNSInfo)
    (name : String) (e : Effect)
    (hcursor : inp.sm.fileOf inp.cursor = inp.sm.mainFile)
    (hspelled : ∀ sp, inp.spelledForQualifier = some sp →
      inp.sm.fileOf sp.frontLoc = inp.sm.mainFile)
    (h : AddUsing.apply inp qual name = .ok e) :
    e.file = inp.sm.fileOf inp.cursor ∧
    e.edits.length ≤ 2 ∧
    (∀ r ∈ e.edits, r.file = inp.sm.fileOf inp.cursor) ∧
    e.edits.Pairwise (fun a b => a.conflictsWith b = false) := by
  obtain ⟨sp, hsp, hc | hc⟩ := apply_ok_characterization inp qual name e h
  · obtain ⟨suffix, hfip, hee⟩ := hc
    subst hee
    refine ⟨by simp [mainFileEdit, hcursor], by simp [mainFileEdit], ?_, ?_⟩
    · intro r hrm
      simp only [mainFileEdit, List.mem_singleton] at hrm
      subst hrm
      rw [mkReplacement]
      simp only
      rw [hspelled sp hsp, hcursor]
    · simp [mainFileEdit]
  · obtain ⟨l, suffix, hfip, hfile, hconf, hee⟩ := hc
    subst hee
    refine ⟨by simp [mainFileEdit, hcursor], by simp [mainFileEdit], ?_, ?_⟩
    · intro r hrm
      simp only [mainFileEdit, List.mem_cons, List.mem_singleton,
        List.not_mem_nil, or_false] at hrm
      rcases hrm with hrm | hrm <;> subst hrm
      · rw [mkReplacement]
        simp only
        rw [hspelled sp hsp, hcursor]
      · rw [mkReplacement]
        simp only
        rw [hfile, hcursor]
    · simp [mainFileEdit, List.pairwise_cons, hconf]

/-- C8 (witness): the edit-set invariants at the example scenario's
concrete successful `apply`. -/
theorem c8_witness :
    c2effect.file = c2sel.sm.fileOf c2sel.cursor ∧
    c2effect.edits.length ≤ 2 ∧
    (∀ r ∈ c2effect.edits, r.file = c2sel.sm.fileOf c2sel.cursor) ∧
    c2effect.edits.Pairwise (fun a b => a.conflictsWith b = false) :=
  c8_editset_invariants c2sel c2qual "f" c2effect
    (by decide) (by intro sp hsp; cases hsp; decide) (by decide)

/-- C9 (bug): the alias scanner's filter never inspects a collected
declaration's qualifier, so it collects `c9u` — a `using` declaration whose
qualifier is a namespace *alias* and therefore does not resolve to a
namespace — and the duplicate comparison dereferences the null namespace:
the scan loop, `findInsertionPoint`, and `apply` all crash instead of
performing a well-defined comparison. -/
theorem c9_bug :
    collectUsings c9sel = [c9u] ∧
    c9u.qualifier.getAsNamespace = none ∧
    findInsertionPoint c9sel c9qual "x" = .crash ∧
    AddUsing.apply c9sel c9qual "x" = .crash := by
  exact ⟨by decide, by decide, by decide, by decide⟩

/-- C10: when the qualifier's range cannot be mapped to spelled tokens,
`apply` returns exactly the spelling error; when the insertion-point search
returns an error, `apply` returns exactly that error; and an erroneous
`apply` never returns an edit set (so the deletion is never emitted
alone). -/
theorem c10_error_propagation (inp : Selection) (qual : NNSInfo)
    (name : String) :
    (inp.spelledForQualifier = none →
      AddUsing.apply inp qual name =
        .err "Could not determine length of the qualifier") ∧
    (∀ sp msg, inp.spelledForQualifier = some sp →
      findInsertionPoint inp qual name = .err msg →
      AddUsing.apply inp qual name = .err msg) ∧
    (∀ msg e, AddUsing.apply inp qual name = .err msg →
      AddUsing.apply inp qual name ≠ .ok e) := by
  refine ⟨?_, ?_, ?_⟩
  · intro hsp
    simp [AddUsing.apply, hsp]
  · intro sp msg hsp hfip
    simp [AddUsing.apply, hsp, Replacements.add_nil, hfip]
  · intro msg e herr hok
    rw [herr] at hok
    simp at hok

/-- C10 (witness): error propagation at the concrete input whose qualifier
range has no spelled counterpart. -/
theorem c10_witness :
    AddUsing.apply c10sel c9qual "x" =
      .err "Could not determine length of the qualifier" :=
  (c10_error_propagation c10sel c9qual "x").1 rfl

end AddUsingSpec
